import Mathlib

/-!
Verification of the tag-compliance reporting pipeline (`src/lambda_function.py`).

The Python module is a linear pipeline: discover resources via Resource
Explorer in a fixed list of regions, enrich each with a best-effort
CloudTrail creator lookup, evaluate required-tag presence, group by region,
render an Excel report, and upload it to S3.

The shallow embedding below mirrors the module function-by-function.
External effects (the Resource Explorer responses per region, the
CloudTrail lookup response, the S3 put outcome) are passed in as explicit
inputs; Python exceptions are modelled with `Except`, where `.error ()`
stands for a raised exception reaching the enclosing handler.  Python
dicts are modelled as association lists with unique keys, insertion
ordered, where assignment to an existing key replaces in place (the
semantics of CPython dicts).  Diagnostic `print` calls are modelled only
where a claim depends on them (the upload log and the handler's terminal
messages); emoji prefixes of the log strings are elided.
-/

/-- `REQUIRED_TAGS` from the module header. -/
def REQUIRED_TAGS : List String := ["DeletionDate", "vendor", "owner", "purpose"]

/-- `REGIONS` from the module header. -/
def REGIONS : List String := ["ap-northeast-1", "ap-south-1"]

/-- `BUCKET_NAME` from the module header. -/
def BUCKET_NAME : String := "vb-auto-tag-check-and-compliance-report-bucket"

/-- One element of a resource's `Tags` list as `evaluate_tag_status` sees it:
a Python dict that may lack the `"Data"` key (`noData`), or has a `"Data"`
dict whose `"Key"` and `"Value"` fields may each be absent (`none`). -/
inductive TagEntry where
  | noData
  | withData (key : Option String) (val : Option String)
deriving DecidableEq, Repr

/-- The shape of the raw `Tags` value (`resource.get("Properties", [])` in the
collector): either a Python list of `TagEntry` dicts, or a flat string-to-string
dict.  An absent `Tags` key defaults to the empty list. -/
inductive TagsVal where
  | list (entries : List TagEntry)
  | flatDict (kvs : List (String × String))
deriving DecidableEq, Repr

/-- Lookup in a Python dict modelled as a unique-key association list. -/
def dictGet : List (String × String) → String → Option String
  | [], _ => none
  | p :: rest, k => if p.1 == k then some p.2 else dictGet rest k

/-- Assignment `d[k] = v` on a Python dict: replace in place if the key
exists, else append at the end (insertion order). -/
def dictInsert : List (String × String) → String → String → List (String × String)
  | [], k, v => [(k, v)]
  | p :: rest, k, v => if p.1 == k then (k, v) :: rest else p :: dictInsert rest k v

/-- The dict comprehension in `evaluate_tag_status`:
`{t["Data"]["Key"]: t["Data"]["Value"] for t in tags if "Data" in t and "Key" in t["Data"]}`.
Entries without `"Data"` or without a `"Key"` are filtered out; an entry that
passes the filter but lacks `"Value"` raises `KeyError` (modelled `.error ()`). -/
def buildTagDictAux (acc : List (String × String)) : List TagEntry → Except Unit (List (String × String))
  | [] => .ok acc
  | .noData :: rest => buildTagDictAux acc rest
  | .withData none _ :: rest => buildTagDictAux acc rest
  | .withData (some _) none :: _ => .error ()
  | .withData (some k) (some v) :: rest => buildTagDictAux (dictInsert acc k v) rest

/-- Does `needle` match at the head of `hay`? -/
def leadMatch : List Char → List Char → Bool
  | [], _ => true
  | _ :: _, [] => false
  | a :: as, b :: bs => a == b && leadMatch as bs

/-- Does `hay` contain `needle` as a contiguous run? -/
def charsContain (needle : List Char) : List Char → Bool
  | [] => needle.isEmpty
  | b :: bs => leadMatch needle (b :: bs) || charsContain needle bs

/-- Python's substring test `needle in hay` on strings. -/
def strContains (needle hay : String) : Bool := charsContain needle.toList hay.toList

/-- Normalisation of the raw `Tags` value into the `tag_keys` dict.
For a Python list, run the dict comprehension.  For a flat dict, the
comprehension iterates over the dict's KEYS (strings): `"Data" in t` is then a
substring test, so keys not containing `"Data"` are filtered out, while a key
containing `"Data"` reaches `t["Data"]` on a `str` and raises `TypeError`. -/
def tagKeysOf : TagsVal → Except Unit (List (String × String))
  | .list es => buildTagDictAux [] es
  | .flatDict kvs =>
    if kvs.any (fun p => strContains "Data" p.1) then .error () else .ok []

/-- The per-key branch of `evaluate_tag_status`:
`"Present"` if `tag in tag_keys and tag_keys[tag]` (a non-empty value is
truthy), else `"Missing"`. -/
def verdictFor (m : List (String × String)) (t : String) : String :=
  match dictGet m t with
  | some v => if v == "" then "Missing" else "Present"
  | none => "Missing"

/-- `evaluate_tag_status`, generalised over the required-tag list the module
stores in the global `REQUIRED_TAGS`. -/
def evalTagsWith (req : List String) (tags : TagsVal) : Except Unit (List (String × String)) :=
  match tagKeysOf tags with
  | .error e => .error e
  | .ok m => .ok (req.map (fun t => (t, verdictFor m t)))

/-- A resource record dict as it flows through the pipeline; every field the
code reads with `.get` is an `Option`. -/
structure ResRec where
  arn : Option String
  region : Option String
  service : Option String
  resourceType : Option String
  creator : Option String
  eventName : Option String
  eventTime : Option String
  tags : TagsVal
deriving DecidableEq, Repr

/-- `evaluate_tag_status(resource)` of the module: evaluates
`resource.get("Tags", [])` against the global `REQUIRED_TAGS`. -/
def evaluate_tag_status (resource : ResRec) : Except Unit (List (String × String)) :=
  evalTagsWith REQUIRED_TAGS resource.tags

/-- One event returned by `cloudtrail.lookup_events`; the fields read with
`event.get(..., "Unknown")` may be absent. -/
structure CTEvent where
  username : Option String
  eventName : Option String
  eventTime : Option String
deriving DecidableEq, Repr

/-- The `lookup_events` response: its `"Events"` list (an absent key behaves
like the empty list — both are falsy in the `if events.get("Events")` test). -/
structure CTResponse where
  events : List CTEvent
deriving DecidableEq, Repr

/-- The resource-name derivation in `get_creator_from_cloudtrail`:
`arn.split("/")[-1] if "/" in arn else arn.split(":")[-1]`. -/
def resourceNameOf (arn : String) : String :=
  if arn.contains '/' then (arn.splitOn "/").getLastD ""
  else (arn.splitOn ":").getLastD ""

/-- `get_creator_from_cloudtrail`.  The single CloudTrail call is modelled by
the `lookup` oracle (resource name to response or raised error); the second
component of the result counts how many lookup attempts were made.  A `None`
arn raises `TypeError` at `"/" in arn` inside the `try`, before any lookup,
so it yields the sentinel with zero attempts. -/
def get_creator_from_cloudtrail (lookup : String → Except String CTResponse)
    (arn : Option String) : (String × String × String) × Nat :=
  match arn with
  | none => (("Unknown", "Unknown", "Unknown"), 0)
  | some a =>
    match lookup (resourceNameOf a) with
    | .error _ => (("Unknown", "Unknown", "Unknown"), 1)
    | .ok resp =>
      match resp.events with
      | [] => (("Unknown", "Unknown", "Unknown"), 1)
      | e :: _ =>
        ((e.username.getD "Unknown", e.eventName.getD "Unknown", e.eventTime.getD "Unknown"), 1)

/-- A raw record from a Resource Explorer `search` page, with the fields the
collector reads (`Arn`, `Properties`, `Service`, `ResourceType`). -/
structure RawResource where
  arn : Option String
  properties : TagsVal
  service : Option String
  resourceType : Option String
deriving DecidableEq, Repr

/-- What one region's discovery API calls amount to: `list_views` returned no
views (`noViews`, the collector skips the region with `continue`), the search
succeeded with these raw records across all pages (`found`), or some call in
this region raised (`failure` — permission, validation or transient error). -/
inductive RegionOutcome where
  | noViews
  | found (resources : List RawResource)
  | failure
deriving DecidableEq, Repr

/-- The record dict the collector appends to `all_resources` for one raw
resource of `region`.  `getCreator` abstracts `get_creator_from_cloudtrail`
applied at the fixed 30-day window (per claim C8 it never raises). -/
def mkRecord (getCreator : Option String → String → String × String × String)
    (region : String) (raw : RawResource) : ResRec :=
  let triple := getCreator raw.arn region
  { arn := raw.arn
    region := some region
    service := some (raw.service.getD "N/A")
    resourceType := some (raw.resourceType.getD "N/A")
    creator := some triple.1
    eventName := some triple.2.1
    eventTime := some triple.2.2
    tags := raw.properties }

/-- The `for region in REGIONS` loop of `fetch_resources_from_regions`.
A `failure` outcome raises out of the loop (`.error ()`); the records
collected so far travel with the recursion and are discarded by the
caller's `except` in that case. -/
def fetchLoop (env : String → RegionOutcome)
    (getCreator : Option String → String → String × String × String) :
    List String → Except Unit (List ResRec)
  | [] => .ok []
  | r :: rest =>
    match env r with
    | .noViews => fetchLoop env getCreator rest
    | .found rs =>
      match fetchLoop env getCreator rest with
      | .error e => .error e
      | .ok tail => .ok (rs.map (mkRecord getCreator r) ++ tail)
    | .failure => .error ()

/-- `fetch_resources_from_regions`: the whole loop body sits in one `try`;
any raised error is caught (`except Exception`) and the function returns
the empty list, discarding everything collected so far. -/
def fetch_resources_from_regions (env : String → RegionOutcome)
    (getCreator : Option String → String → String × String × String) : List ResRec :=
  match fetchLoop env getCreator REGIONS with
  | .ok l => l
  | .error _ => []

/-- The records one region contributes when no region fails. -/
def regionRecords (env : String → RegionOutcome)
    (getCreator : Option String → String → String × String × String)
    (r : String) : List ResRec :=
  match env r with
  | .found rs => rs.map (mkRecord getCreator r)
  | _ => []

/-- The dict `categorize_by_region_with_tags` builds per record: metadata
fields defaulted with `.get(..., "N/A")`, then the tag verdicts merged in
(`**tag_status`). -/
structure GroupedRec where
  arn : Option String
  service : String
  resourceType : String
  creator : String
  eventName : String
  eventTime : String
  tagStatus : List (String × String)
deriving DecidableEq, Repr

/-- Builds the grouped record from a pipeline record and its verdicts. -/
def mkGrouped (r : ResRec) (ts : List (String × String)) : GroupedRec :=
  { arn := r.arn
    service := r.service.getD "N/A"
    resourceType := r.resourceType.getD "N/A"
    creator := r.creator.getD "N/A"
    eventName := r.eventName.getD "N/A"
    eventTime := r.eventTime.getD "N/A"
    tagStatus := ts }

/-- `categorized[region].append(rec)` preceded by
`if region not in categorized: categorized[region] = []` — append to the
existing key's list in place, else add a new key at the end. -/
def catInsert : List (String × List GroupedRec) → String → GroupedRec → List (String × List GroupedRec)
  | [], k, g => [(k, [g])]
  | p :: rest, k, g =>
    if p.1 == k then (p.1, p.2 ++ [g]) :: rest else p :: catInsert rest k g

/-- The list stored under key `k` in the grouping dict (empty if absent). -/
def groupGet : List (String × List GroupedRec) → String → List GroupedRec
  | [], _ => []
  | p :: rest, k => if p.1 == k then p.2 else groupGet rest k

/-- The region key `res.get("Region", "unknown")`. -/
def regionOf (r : ResRec) : String := r.region.getD "unknown"

/-- The `for res in resources` loop of `categorize_by_region_with_tags`;
`evaluate_tag_status` may raise (propagated to the Lambda handler). -/
def categorizeAux (req : List String) (cat : List (String × List GroupedRec)) :
    List ResRec → Except Unit (List (String × List GroupedRec))
  | [] => .ok cat
  | r :: rest =>
    match evalTagsWith req r.tags with
    | .error e => .error e
    | .ok ts => categorizeAux req (catInsert cat (regionOf r) (mkGrouped r ts)) rest

/-- `categorize_by_region_with_tags` (with the module's `REQUIRED_TAGS`). -/
def categorize_by_region_with_tags (resources : List ResRec) :
    Except Unit (List (String × List GroupedRec)) :=
  categorizeAux REQUIRED_TAGS [] resources

/-- The verdicts a record evaluates to, total (irrelevant default on the
raising inputs, which `categorizeAux` never passes beyond). -/
def verdictsOfD (req : List String) (r : ResRec) : List (String × String) :=
  match evalTagsWith req r.tags with
  | .ok ts => ts
  | .error _ => []

/-- The grouped record `categorize_by_region_with_tags` emits for `r`. -/
def convRec (req : List String) (r : ResRec) : GroupedRec :=
  mkGrouped r (verdictsOfD req r)

/-- The header row of `generate_excel_report`:
`["Resource ARN", "Service", "Resource Type", "Creator", "EventName", "EventTime"] + REQUIRED_TAGS`. -/
def headersWith (req : List String) : List String :=
  ["Resource ARN", "Service", "Resource Type", "Creator", "EventName", "EventTime"] ++ req

/-- The per-row tag cells `[res[tag] for tag in REQUIRED_TAGS]`; `res[tag]`
raises `KeyError` when the verdict dict lacks the key. -/
def tagCellsOf (g : GroupedRec) : List String → Except Unit (List (Option String))
  | [] => .ok []
  | t :: rest =>
    match List.lookup t g.tagStatus with
    | none => .error ()
    | some v =>
      match tagCellsOf g rest with
      | .error e => .error e
      | .ok cells => .ok (some v :: cells)

/-- One data row: the six metadata cells then the tag cells.  Cells are
`Option String` so that a `None` arn renders as a `None` cell. -/
def rowOf (req : List String) (g : GroupedRec) : Except Unit (List (Option String)) :=
  match tagCellsOf g req with
  | .error e => .error e
  | .ok cells =>
    .ok ([g.arn, some g.service, some g.resourceType, some g.creator,
          some g.eventName, some g.eventTime] ++ cells)

/-- The `for res in resources` loop appending one row per record. -/
def rowsOf (req : List String) : List GroupedRec → Except Unit (List (List (Option String)))
  | [] => .ok []
  | g :: rest =>
    match rowOf req g with
    | .error e => .error e
    | .ok row =>
      match rowsOf req rest with
      | .error e => .error e
      | .ok rows => .ok (row :: rows)

/-- `generate_excel_report`, abstracting a sheet as its title and cell grid
(header row first).  The default-sheet removal and the column-width pass
change no cell content and are not modelled. -/
def generate_excel_report (req : List String) :
    List (String × List GroupedRec) → Except Unit (List (String × List (List (Option String))))
  | [] => .ok []
  | (region, resources) :: rest =>
    match rowsOf req resources with
    | .error e => .error e
    | .ok rows =>
      match generate_excel_report req rest with
      | .error e => .error e
      | .ok sheets => .ok ((region, ((headersWith req).map some) :: rows) :: sheets)

/-- `upload_excel_to_s3`, given the outcome of the single `put_object` call:
returns the log line it prints and the number of put attempts made.  The
raised error is caught inside the function (it never propagates). -/
def upload_excel_to_s3 (putOutcome : Except String Unit) (fileName : String) : String × Nat :=
  match putOutcome with
  | .ok _ => ("Report uploaded to S3: " ++ fileName, 1)
  | .error e => ("Failed to upload report: " ++ e, 1)

/-- `lambda_handler`, modelled as the sequence of log lines it prints
(emoji prefixes and the collector's internal diagnostics elided).  The
trailing `except` turns any raised error into the terminal error log. -/
def lambda_handler (env : String → RegionOutcome)
    (getCreator : Option String → String → String × String × String)
    (putOutcome : Except String Unit) (timestamp : String) : List String :=
  let resources := fetch_resources_from_regions env getCreator
  if resources.isEmpty then
    ["Execution started...", "No resources found."]
  else
    match categorize_by_region_with_tags resources with
    | .error _ => ["Execution started...", "Error during Lambda execution"]
    | .ok cat =>
      match generate_excel_report REQUIRED_TAGS cat with
      | .error _ => ["Execution started...", "Error during Lambda execution"]
      | .ok _report =>
        let fileName := "tag-compliance-report-" ++ timestamp ++ ".xlsx"
        ["Execution started...",
         (upload_excel_to_s3 putOutcome fileName).1,
         "Excel report generated and uploaded successfully: " ++ fileName]
/-! ## Auxiliary notions used by the theorems -/

/-- First-some choice on options. -/
def mergeOpt (a b : Option String) : Option String :=
  match a with
  | some v => some v
  | none => b

/-- The value of the last well-keyed, valued entry for key `k` (later entries
shadow earlier ones, as in a Python dict comprehension). -/
def lastKeyedValue : List TagEntry → String → Option String
  | [], _ => none
  | e :: rest, k =>
    match lastKeyedValue rest k with
    | some v => some v
    | none =>
      match e with
      | .withData (some k2) (some v) => if k2 == k then some v else none
      | _ => none

/-- The keys of the entries that pass the comprehension's filter. -/
def keyedKeys : List TagEntry → List String
  | [] => []
  | .withData (some k) _ :: rest => k :: keyedKeys rest
  | .noData :: rest => keyedKeys rest
  | .withData none _ :: rest => keyedKeys rest

/-! ## Concrete instances used by counterexamples and witnesses -/

/-- Concrete record for the C4 witness: `vendor` has a non-empty value,
`owner` is present with the empty string value. -/
def resC4 : ResRec :=
  { arn := some "arn:aws:s3:::bucketW", region := some "ap-northeast-1"
    service := some "s3", resourceType := some "AWS::S3::Bucket"
    creator := none, eventName := none, eventTime := none
    tags := .list [.withData (some "vendor") (some "acme"),
                   .withData (some "owner") (some "")] }

/-- Concrete record for the C10 witness: `owner=alice` then `owner=` (empty);
the later, empty entry wins and the verdict is `"Missing"`. -/
def resC10 : ResRec :=
  { arn := some "arn:aws:s3:::bucketX", region := some "ap-northeast-1"
    service := some "s3", resourceType := some "AWS::S3::Bucket"
    creator := none, eventName := none, eventTime := none
    tags := .list [.withData (some "owner") (some "alice"),
                   .withData (some "owner") (some "")] }

/-- Record whose tag list has an entry with a `"Key"` but no `"Value"`:
`evaluate_tag_status` raises `KeyError` on it. -/
def resC5 : ResRec :=
  { arn := some "arn:aws:s3:::bucketY", region := some "ap-northeast-1"
    service := some "s3", resourceType := some "AWS::S3::Bucket"
    creator := none, eventName := none, eventTime := none
    tags := .list [.withData (some "owner") none] }

/-- Region environment with a successful first region and a throwing second
region. -/
def envC1 : String → RegionOutcome :=
  fun r => if r == "ap-northeast-1" then
    .found [{ arn := some "arn:aws:s3:::bucketA", properties := .list []
              service := some "s3", resourceType := some "AWS::S3::Bucket" }]
  else .failure

/-- Same environment except the second region merely has no views. -/
def envOne : String → RegionOutcome :=
  fun r => if r == "ap-northeast-1" then
    .found [{ arn := some "arn:aws:s3:::bucketA", properties := .list []
              service := some "s3", resourceType := some "AWS::S3::Bucket" }]
  else .noViews

/-- A creator oracle that always yields the sentinel triple. -/
def creatorU : Option String → String → String × String × String :=
  fun _ _ => ("Unknown", "Unknown", "Unknown")

/-- Region environment where the first region reports permission-denied
(a thrown `UnauthorizedException`) and the second region succeeds. -/
def envC2 : String → RegionOutcome :=
  fun r => if r == "ap-northeast-1" then .failure
  else .found [{ arn := some "arn:aws:ec2:ap-south-1::instance/i-b", properties := .list []
                 service := some "ec2", resourceType := some "AWS::EC2::Instance" }]

/-- Environment discovering the multiset `{A, A, B}` across the two regions:
identifier `A` is reported by both regions, `B` by the second. -/
def envC3 : String → RegionOutcome :=
  fun r => if r == "ap-northeast-1" then
    .found [{ arn := some "arn:aws:s3:::bucketA", properties := .list []
              service := some "s3", resourceType := some "AWS::S3::Bucket" }]
  else
    .found [{ arn := some "arn:aws:s3:::bucketA", properties := .list []
              service := some "s3", resourceType := some "AWS::S3::Bucket" },
            { arn := some "arn:aws:s3:::bucketB", properties := .list []
              service := some "s3", resourceType := some "AWS::S3::Bucket" }]

/-- The keys of the grouping dict, in insertion order. -/
def catKeys (cat : List (String × List GroupedRec)) : List String :=
  cat.map (fun p => p.1)

/-- A record whose `Region` key is absent. -/
def resNoRegion : ResRec :=
  { arn := some "arn:aws:ec2:::instance/i-1", region := none
    service := some "ec2", resourceType := some "AWS::EC2::Instance"
    creator := none, eventName := none, eventTime := none
    tags := .list [] }

/-- A grouped record with all four required-tag verdicts, as
`categorize_by_region_with_tags` emits. -/
def groupedC7 : GroupedRec :=
  { arn := some "arn:aws:s3:::bucketA", service := "s3"
    resourceType := "AWS::S3::Bucket", creator := "Unknown"
    eventName := "Unknown", eventTime := "Unknown"
    tagStatus := [("DeletionDate", "Missing"), ("vendor", "Missing"),
                  ("owner", "Present"), ("purpose", "Missing")] }

/-- A CloudTrail oracle that always raises (e.g. `AccessDeniedException`). -/
def lookupDenied : String → Except String CTResponse := fun _ => .error "AccessDenied"

/-- The record collected from `envOne` in region `ap-northeast-1`. -/
def recA : ResRec :=
  { arn := some "arn:aws:s3:::bucketA", region := some "ap-northeast-1"
    service := some "s3", resourceType := some "AWS::S3::Bucket"
    creator := some "Unknown", eventName := some "Unknown"
    eventTime := some "Unknown", tags := .list [] }

/-! ## Tag-dictionary lemmas -/

theorem dictGet_insert_self (m : List (String × String)) (k v : String) :
    dictGet (dictInsert m k v) k = some v := by
  induction m with
  | nil => simp [dictInsert, dictGet]
  | cons p rest ih =>
    by_cases h : p.1 == k
    · simp [dictInsert, h, dictGet]
    · simp [dictInsert, h, dictGet, ih]

theorem dictGet_insert_ne (m : List (String × String)) (k v k' : String) (h : k' ≠ k) :
    dictGet (dictInsert m k v) k' = dictGet m k' := by
  have hkk : (k == k') = false := by simp [beq_eq_false_iff_ne]; exact fun e => h e.symm
  induction m with
  | nil => simp [dictInsert, dictGet, hkk]
  | cons p rest ih =>
    by_cases hp : p.1 == k
    · have hp1 : p.1 = k := by simpa using hp
      have : (p.1 == k') = false := by
        simp [beq_eq_false_iff_ne, hp1]; exact fun e => h e.symm
      simp [dictInsert, hp, dictGet, hkk, this]
    · simp [dictInsert, hp, dictGet, ih]

theorem lastKeyedValue_cons_noData (rest : List TagEntry) (k : String) :
    lastKeyedValue (.noData :: rest) k = lastKeyedValue rest k := by
  cases hl : lastKeyedValue rest k <;> simp [lastKeyedValue, hl]

theorem lastKeyedValue_cons_keyless (rest : List TagEntry) (v : Option String) (k : String) :
    lastKeyedValue (.withData none v :: rest) k = lastKeyedValue rest k := by
  cases hl : lastKeyedValue rest k <;> simp [lastKeyedValue, hl]

theorem buildTagDictAux_char (es : List TagEntry) :
    ∀ (acc m : List (String × String)), buildTagDictAux acc es = .ok m →
      ∀ k, dictGet m k = mergeOpt (lastKeyedValue es k) (dictGet acc k) := by
  induction es with
  | nil =>
    intro acc m h k
    simp [buildTagDictAux] at h
    simp [lastKeyedValue, mergeOpt, h]
  | cons e rest ih =>
    intro acc m h k
    match e with
    | .noData =>
      simp only [buildTagDictAux] at h
      rw [lastKeyedValue_cons_noData]
      exact ih acc m h k
    | .withData none v =>
      simp only [buildTagDictAux] at h
      rw [lastKeyedValue_cons_keyless]
      exact ih acc m h k
    | .withData (some k2) none =>
      simp [buildTagDictAux] at h
    | .withData (some k2) (some v2) =>
      simp only [buildTagDictAux] at h
      have hrest := ih (dictInsert acc k2 v2) m h k
      rw [hrest]
      cases hlast : lastKeyedValue rest k with
      | some v => simp [lastKeyedValue, hlast, mergeOpt]
      | none =>
        by_cases hk : k2 == k
        · have hk2 : k2 = k := by simpa using hk
          subst hk2
          simp [lastKeyedValue, hlast, mergeOpt, dictGet_insert_self]
        · have hne : k ≠ k2 := by
            intro e; rw [e] at hk; simp at hk
          simp [lastKeyedValue, hlast, mergeOpt, hk, dictGet_insert_ne acc k2 v2 k hne]

theorem buildTagDict_char (es : List TagEntry) (m : List (String × String))
    (h : buildTagDictAux [] es = .ok m) (k : String) :
    dictGet m k = lastKeyedValue es k := by
  have := buildTagDictAux_char es [] m h k
  cases hl : lastKeyedValue es k <;> simp [hl, mergeOpt, dictGet] at this ⊢ <;> simp [this]

theorem lastKeyedValue_mem (es : List TagEntry) (k v : String)
    (h : lastKeyedValue es k = some v) : TagEntry.withData (some k) (some v) ∈ es := by
  induction es with
  | nil => simp [lastKeyedValue] at h
  | cons e rest ih =>
    simp only [lastKeyedValue] at h
    cases hrest : lastKeyedValue rest k with
    | some v' =>
      rw [hrest] at h
      cases h
      exact List.mem_cons_of_mem _ (ih hrest)
    | none =>
      rw [hrest] at h
      match e with
      | .noData => simp at h
      | .withData none _ => simp at h
      | .withData (some k2) none => simp at h
      | .withData (some k2) (some v2) =>
        simp only at h
        by_cases hk : (k2 == k) = true
        · have hkk : k2 = k := by simpa using hk
          subst hkk
          rw [if_pos hk] at h
          cases h
          exact List.mem_cons_self _ _
        · rw [if_neg hk] at h
          simp at h

theorem lastKeyedValue_of_not_keyed (es : List TagEntry) (k : String)
    (h : k ∉ keyedKeys es) : lastKeyedValue es k = none := by
  induction es with
  | nil => simp [lastKeyedValue]
  | cons e rest ih =>
    match e with
    | .noData =>
      simp only [keyedKeys] at h
      simp [lastKeyedValue, ih h]
    | .withData none v =>
      simp only [keyedKeys] at h
      simp [lastKeyedValue, ih h]
    | .withData (some k2) v =>
      simp only [keyedKeys, List.mem_cons] at h
      push_neg at h
      have hne : (k2 == k) = false := by
        simp [beq_eq_false_iff_ne]; exact fun e => h.1 e.symm
      cases v with
      | none => simp [lastKeyedValue, ih h.2, hne]
      | some v0 => simp [lastKeyedValue, ih h.2, hne]

theorem mem_lastKeyedValue_of_nodup (es : List TagEntry) (k v : String)
    (hnd : (keyedKeys es).Nodup)
    (hmem : TagEntry.withData (some k) (some v) ∈ es) :
    lastKeyedValue es k = some v := by
  induction es with
  | nil => simp at hmem
  | cons e rest ih =>
    rcases List.mem_cons.mp hmem with he | hrest
    · subst he
      simp only [keyedKeys, List.nodup_cons] at hnd
      have : lastKeyedValue rest k = none := lastKeyedValue_of_not_keyed rest k hnd.1
      simp [lastKeyedValue, this]
    · have hlast : lastKeyedValue rest k = some v := by
        apply ih _ hrest
        match e with
        | .noData => simpa [keyedKeys] using hnd
        | .withData none _ => simpa [keyedKeys] using hnd
        | .withData (some k2) _ =>
          simp only [keyedKeys, List.nodup_cons] at hnd
          exact hnd.2
      simp [lastKeyedValue, hlast]

theorem lastKeyedValue_append_last (es : List TagEntry) (k v : String) :
    lastKeyedValue (es ++ [TagEntry.withData (some k) (some v)]) k = some v := by
  induction es with
  | nil => simp [lastKeyedValue]
  | cons e rest ih => simp [lastKeyedValue, ih]

theorem lookup_map_pair (f : String → String) (k : String) :
    ∀ (req : List String), k ∈ req →
      List.lookup k (req.map fun t => (t, f t)) = some (f k) := by
  intro req
  induction req with
  | nil => intro hk; simp at hk
  | cons t rest ih =>
    intro hk
    by_cases ht : (k == t) = true
    · have : k = t := by simpa using ht
      subst this
      simp [List.lookup]
    · have hmem : k ∈ rest := by
        rcases List.mem_cons.mp hk with h | h
        · exact absurd (by simp [h]) ht
        · exact h
      simp [List.lookup, ht, ih hmem]

theorem buildTagDictAux_total (es : List TagEntry)
    (hes : ∀ k, TagEntry.withData (some k) none ∉ es) :
    ∀ acc, ∃ m, buildTagDictAux acc es = .ok m := by
  induction es with
  | nil => intro acc; exact ⟨acc, rfl⟩
  | cons e rest ih =>
    intro acc
    have hrest : ∀ k, TagEntry.withData (some k) none ∉ rest := by
      intro k hk
      exact hes k (List.mem_cons_of_mem _ hk)
    match e with
    | .noData => exact ih hrest acc
    | .withData none v => exact ih hrest acc
    | .withData (some k2) none => exact absurd (List.mem_cons_self _ _) (hes k2)
    | .withData (some k2) (some v2) => exact ih hrest (dictInsert acc k2 v2)

/-! ## Claim C4 -/

/-- C4 (confirmed, for wrapped tag lists whose filtered keys are pairwise
distinct — a key occurring twice is settled by claim C10's last-wins rule):
whenever `evaluate_tag_status` returns a verdict for a record carrying a
wrapped tag list, a required key `k` maps to `"Present"` iff some entry
carries `k` with a non-empty value, and an entry carrying `k` with the empty
string value yields `"Missing"`. -/
theorem evaluate_tag_status_present_iff (r : ResRec) (es : List TagEntry) (k : String)
    (verdicts : List (String × String))
    (htags : r.tags = .list es)
    (hnd : (keyedKeys es).Nodup)
    (hk : k ∈ REQUIRED_TAGS)
    (h : evaluate_tag_status r = .ok verdicts) :
    (List.lookup k verdicts = some "Present" ↔
      ∃ v, TagEntry.withData (some k) (some v) ∈ es ∧ v ≠ "") ∧
    (TagEntry.withData (some k) (some "") ∈ es →
      List.lookup k verdicts = some "Missing") := by
  rw [evaluate_tag_status, evalTagsWith, htags] at h
  cases hb : tagKeysOf (.list es) with
  | error e => rw [hb] at h; simp at h
  | ok m =>
    rw [hb] at h
    simp only [Except.ok.injEq] at h
    subst h
    have hchar : dictGet m k = lastKeyedValue es k := buildTagDict_char es m hb k
    rw [lookup_map_pair (verdictFor m) k REQUIRED_TAGS hk]
    constructor
    · constructor
      · intro hp
        simp only [verdictFor, hchar] at hp
        cases hl : lastKeyedValue es k with
        | none =>
          rw [hl] at hp
          exact absurd (Option.some.inj hp) (by decide)
        | some v =>
          rw [hl] at hp
          by_cases hv : (v == "") = true
          · simp only [hv, if_true] at hp
            exact absurd (Option.some.inj hp) (by decide)
          · exact ⟨v, lastKeyedValue_mem es k v hl, by simpa using hv⟩
      · rintro ⟨v, hmem, hv⟩
        have hl : lastKeyedValue es k = some v := mem_lastKeyedValue_of_nodup es k v hnd hmem
        have hv2 : (v == "") = false := by simpa using hv
        simp [verdictFor, hchar, hl, hv2]
    · intro hmem
      have hl : lastKeyedValue es k = some "" := mem_lastKeyedValue_of_nodup es k "" hnd hmem
      simp [verdictFor, hchar, hl]

/-- Witness for C4 at `resC4` and key `"owner"`. -/
theorem evaluate_tag_status_present_iff_witness :
    (List.lookup "owner"
        [("DeletionDate", "Missing"), ("vendor", "Present"), ("owner", "Missing"), ("purpose", "Missing")] =
          some "Present" ↔
      ∃ v, TagEntry.withData (some "owner") (some v) ∈
          [TagEntry.withData (some "vendor") (some "acme"),
           TagEntry.withData (some "owner") (some "")] ∧ v ≠ "") ∧
    (TagEntry.withData (some "owner") (some "") ∈
        [TagEntry.withData (some "vendor") (some "acme"),
         TagEntry.withData (some "owner") (some "")] →
      List.lookup "owner"
        [("DeletionDate", "Missing"), ("vendor", "Present"), ("owner", "Missing"), ("purpose", "Missing")] =
          some "Missing") :=
  evaluate_tag_status_present_iff resC4
    [.withData (some "vendor") (some "acme"), .withData (some "owner") (some "")]
    "owner"
    [("DeletionDate", "Missing"), ("vendor", "Present"), ("owner", "Missing"), ("purpose", "Missing")]
    rfl (by decide) (by decide) rfl

/-! ## Claim C10 -/

/-- C10 (confirmed): in a wrapped tag list, a later entry for key `k`
overrides every earlier entry for `k` during dict-comprehension
normalisation, so the verdict for `k` is computed from the last entry's
value — whatever entries (including earlier occurrences of `k`) precede it. -/
theorem evaluate_tag_status_last_wins (r : ResRec) (es : List TagEntry) (k v : String)
    (verdicts : List (String × String))
    (htags : r.tags = .list (es ++ [.withData (some k) (some v)]))
    (hk : k ∈ REQUIRED_TAGS)
    (h : evaluate_tag_status r = .ok verdicts) :
    List.lookup k verdicts = some (if v == "" then "Missing" else "Present") := by
  rw [evaluate_tag_status, evalTagsWith, htags] at h
  cases hb : tagKeysOf (.list (es ++ [.withData (some k) (some v)])) with
  | error e => rw [hb] at h; simp at h
  | ok m =>
    rw [hb] at h
    simp only [Except.ok.injEq] at h
    subst h
    rw [lookup_map_pair (verdictFor m) k REQUIRED_TAGS hk]
    have hchar : dictGet m k = lastKeyedValue (es ++ [.withData (some k) (some v)]) k :=
      buildTagDict_char _ m hb k
    simp [verdictFor, hchar, lastKeyedValue_append_last]

/-- Witness for C10 at `resC10`. -/
theorem evaluate_tag_status_last_wins_witness :
    List.lookup "owner"
        [("DeletionDate", "Missing"), ("vendor", "Missing"), ("owner", "Missing"), ("purpose", "Missing")] =
      some (if ("" == "") = true then "Missing" else "Present") :=
  evaluate_tag_status_last_wins resC10
    [.withData (some "owner") (some "alice")] "owner" ""
    [("DeletionDate", "Missing"), ("vendor", "Missing"), ("owner", "Missing"), ("purpose", "Missing")]
    rfl (by decide) rfl

/-! ## Claim C5 -/

/-- C5 counterexample: the evaluator is not total — a malformed wrapper entry
(`"Data"` with `"Key"` but no `"Value"`) raises instead of being handled; and
a flat mapping is NOT normalised: the same `owner=alice` tag yields `Present`
in the wrapped-list shape but all-`Missing` in the flat-dict shape. -/
theorem evaluate_tag_status_not_total :
    evaluate_tag_status resC5 = .error () ∧
    evalTagsWith REQUIRED_TAGS (.flatDict [("owner", "alice")]) =
      .ok [("DeletionDate", "Missing"), ("vendor", "Missing"), ("owner", "Missing"), ("purpose", "Missing")] ∧
    evalTagsWith REQUIRED_TAGS (.list [.withData (some "owner") (some "alice")]) =
      .ok [("DeletionDate", "Missing"), ("vendor", "Missing"), ("owner", "Present"), ("purpose", "Missing")] := by
  refine ⟨rfl, rfl, rfl⟩

/-- C5 amended: the evaluator is total only on benign inputs — it returns
all-`Missing` on an empty or absent tag collection, succeeds on wrapped lists
in which every entry that passes the filter carries a `"Value"`, and returns
all-`Missing` on a flat mapping none of whose keys contains `"Data"` as a
substring (such a mapping is skipped wholesale, not normalised); a filtered
entry without `"Value"` raises, as does a flat mapping with a `"Data"`-bearing
key. -/
theorem evalTagsWith_total_on_benign (req : List String) (es : List TagEntry)
    (kvs : List (String × String))
    (hes : ∀ k, TagEntry.withData (some k) none ∉ es)
    (hkvs : ∀ p ∈ kvs, strContains "Data" p.1 = false) :
    evalTagsWith req (.list []) = .ok (req.map fun t => (t, "Missing")) ∧
    (∃ verdicts, evalTagsWith req (.list es) = .ok verdicts) ∧
    evalTagsWith req (.flatDict kvs) = .ok (req.map fun t => (t, "Missing")) := by
  refine ⟨?_, ?_, ?_⟩
  · simp [evalTagsWith, tagKeysOf, buildTagDictAux, verdictFor, dictGet]
  · obtain ⟨m, hm⟩ := buildTagDictAux_total es hes []
    exact ⟨req.map fun t => (t, verdictFor m t), by simp [evalTagsWith, tagKeysOf, hm]⟩
  · have hany : kvs.any (fun p => strContains "Data" p.1) = false := by
      simp only [List.any_eq_false]
      intro p hp
      simp [hkvs p hp]
    simp [evalTagsWith, tagKeysOf, hany, verdictFor, dictGet]

/-- Witness for the amended C5 on concrete benign inputs. -/
theorem evalTagsWith_total_on_benign_witness :
    evalTagsWith REQUIRED_TAGS (.list []) = .ok (REQUIRED_TAGS.map fun t => (t, "Missing")) ∧
    (∃ verdicts, evalTagsWith REQUIRED_TAGS
        (.list [.withData (some "owner") (some "alice"), .noData]) = .ok verdicts) ∧
    evalTagsWith REQUIRED_TAGS (.flatDict [("owner", "alice")]) =
      .ok (REQUIRED_TAGS.map fun t => (t, "Missing")) :=
  evalTagsWith_total_on_benign REQUIRED_TAGS
    [.withData (some "owner") (some "alice"), .noData] [("owner", "alice")]
    (by intro k hk; simp at hk) (by decide)

/-! ## Collector lemmas -/

theorem fetchLoop_of_failure (env : String → RegionOutcome)
    (c : Option String → String → String × String × String) (regions : List String)
    (r : String) (hr : r ∈ regions) (hf : env r = .failure) :
    fetchLoop env c regions = .error () := by
  induction regions with
  | nil => simp at hr
  | cons a rest ih =>
    rcases List.mem_cons.mp hr with h | h
    · subst h; simp [fetchLoop, hf]
    · cases ha : env a with
      | noViews => simp [fetchLoop, ha, ih h]
      | found rs => simp [fetchLoop, ha, ih h]
      | failure => simp [fetchLoop, ha]

theorem fetchLoop_of_no_failure (env : String → RegionOutcome)
    (c : Option String → String → String × String × String) (regions : List String)
    (h : ∀ r ∈ regions, env r ≠ .failure) :
    fetchLoop env c regions = .ok (List.flatten (regions.map (regionRecords env c))) := by
  induction regions with
  | nil => simp [fetchLoop]
  | cons a rest ih =>
    have ha := h a (List.mem_cons_self a rest)
    have hrest : ∀ r ∈ rest, env r ≠ .failure := fun r hr => h r (List.mem_cons_of_mem _ hr)
    cases hae : env a with
    | noViews => simp [fetchLoop, hae, ih hrest, regionRecords]
    | found rs => simp [fetchLoop, hae, ih hrest, regionRecords]
    | failure => exact absurd hae ha

theorem countP_flatten_eq {α : Type} (p : α → Bool) :
    ∀ ls : List (List α), List.countP p ls.flatten = (ls.map (List.countP p)).sum := by
  intro ls
  induction ls with
  | nil => simp
  | cons l rest ih => simp [List.countP_append, ih]

/-! ## Claim C1 -/

/-- C1 counterexample: discovery succeeds in `ap-northeast-1` (with the second
region silent, its record is collected), yet when the second region throws,
the collector returns the empty list — the record already collected from the
succeeding partition is NOT in the output. -/
theorem fetch_discards_collected_on_failure :
    fetch_resources_from_regions envOne creatorU =
      [{ arn := some "arn:aws:s3:::bucketA", region := some "ap-northeast-1"
         service := some "s3", resourceType := some "AWS::S3::Bucket"
         creator := some "Unknown", eventName := some "Unknown"
         eventTime := some "Unknown", tags := .list [] }] ∧
    envC1 "ap-northeast-1" = envOne "ap-northeast-1" ∧
    envC1 "ap-south-1" = .failure ∧
    fetch_resources_from_regions envC1 creatorU = [] := by
  refine ⟨rfl, rfl, rfl, rfl⟩

/-- C1 amended: only the empty-result (no views) condition is skipped with
`continue`; a thrown discovery error in any configured partition aborts the
whole collection — the collector's catch-all returns the empty list,
discarding records already collected from the succeeding partitions, and the
handler then terminates with "No resources found." rather than crashing.
When no partition throws, the collector returns every partition's records
concatenated in configured order. -/
theorem fetch_abort_semantics (env : String → RegionOutcome)
    (c : Option String → String → String × String × String)
    (put : Except String Unit) (ts : String) :
    ((∃ r ∈ REGIONS, env r = .failure) →
      fetch_resources_from_regions env c = [] ∧
      lambda_handler env c put ts = ["Execution started...", "No resources found."]) ∧
    ((∀ r ∈ REGIONS, env r ≠ .failure) →
      fetch_resources_from_regions env c = List.flatten (REGIONS.map (regionRecords env c))) := by
  constructor
  · rintro ⟨r, hr, hf⟩
    have hempty : fetch_resources_from_regions env c = [] := by
      rw [fetch_resources_from_regions, fetchLoop_of_failure env c REGIONS r hr hf]
    refine ⟨hempty, ?_⟩
    rw [lambda_handler, hempty]
    rfl
  · intro h
    rw [fetch_resources_from_regions, fetchLoop_of_no_failure env c REGIONS h]

/-- Witness for the amended C1 at the concrete environments. -/
theorem fetch_abort_semantics_witness :
    (fetch_resources_from_regions envC1 creatorU = [] ∧
      lambda_handler envC1 creatorU (.ok ()) "2025-01-01-00-00-00" =
        ["Execution started...", "No resources found."]) ∧
    fetch_resources_from_regions envOne creatorU =
      List.flatten (REGIONS.map (regionRecords envOne creatorU)) :=
  ⟨(fetch_abort_semantics envC1 creatorU (.ok ()) "2025-01-01-00-00-00").1
      ⟨"ap-south-1", by decide, by decide⟩,
   (fetch_abort_semantics envOne creatorU (.ok ()) "2025-01-01-00-00-00").2
      (by intro r hr; fin_cases hr <;> decide)⟩

/-! ## Claim C2 -/

/-- C2 counterexample: with a permission-denied failure in `ap-northeast-1`,
no fallback discovery runs — the collector returns the empty list (even the
other region's records vanish) and the handler reports no resources, so no
locally-filtered fallback results can appear in any report. -/
theorem no_fallback_on_permission_denied :
    envC2 "ap-northeast-1" = .failure ∧
    fetch_resources_from_regions envC2 creatorU = [] ∧
    lambda_handler envC2 creatorU (.ok ()) "2025-01-01-00-00-00" =
      ["Execution started...", "No resources found."] := by
  refine ⟨rfl, rfl, rfl⟩

/-- C2 amended: the code has no fallback discovery source at all.  A
source-reported permission failure in any configured partition raises out of
the collection loop; the catch-all returns the empty list, so no record —
fallback-filtered or otherwise — appears in the final report. -/
theorem no_fallback_source (env : String → RegionOutcome)
    (c : Option String → String → String × String × String)
    (x : String) (hx : x ∈ REGIONS) (hf : env x = .failure) :
    ∀ rec : ResRec, rec ∉ fetch_resources_from_regions env c := by
  intro rec
  rw [fetch_resources_from_regions, fetchLoop_of_failure env c REGIONS x hx hf]
  simp

/-- Witness for the amended C2 at the concrete environment and record. -/
theorem no_fallback_source_witness :
    recA ∉ fetch_resources_from_regions envC2 creatorU :=
  no_fallback_source envC2 creatorU "ap-northeast-1" (by decide) (by decide) recA

/-! ## Claim C3 -/

/-- C3 counterexample: collecting `{A, A, B}` from the two partitions yields
three records, two of which carry identifier `A` — the collector does not
deduplicate by identifier. -/
theorem collector_keeps_duplicates :
    List.countP (fun rec => rec.arn == some "arn:aws:s3:::bucketA")
        (fetch_resources_from_regions envC3 creatorU) = 2 ∧
    (fetch_resources_from_regions envC3 creatorU).length = 3 := by
  refine ⟨rfl, rfl⟩

/-- C3 amended: the collector performs no deduplication — in a failure-free
run, the number of output records carrying any given identifier equals the
sum over partitions of the number of raw records carrying it, and the output
is exactly the concatenation of the partitions' record lists in configured
order. -/
theorem collector_count_preserving (env : String → RegionOutcome)
    (c : Option String → String → String × String × String) (a : Option String)
    (h : ∀ r ∈ REGIONS, env r ≠ .failure) :
    List.countP (fun rec => rec.arn == a) (fetch_resources_from_regions env c) =
      (REGIONS.map (fun r =>
        List.countP (fun rec => rec.arn == a) (regionRecords env c r))).sum := by
  rw [fetch_resources_from_regions, fetchLoop_of_no_failure env c REGIONS h]
  rw [countP_flatten_eq, List.map_map]
  rfl

/-- Witness for the amended C3 at the duplicate-bearing environment. -/
theorem collector_count_preserving_witness :
    List.countP (fun rec => rec.arn == some "arn:aws:s3:::bucketA")
        (fetch_resources_from_regions envC3 creatorU) =
      (REGIONS.map (fun r =>
        List.countP (fun rec => rec.arn == some "arn:aws:s3:::bucketA")
          (regionRecords envC3 creatorU r))).sum :=
  collector_count_preserving envC3 creatorU (some "arn:aws:s3:::bucketA")
    (by intro r hr; fin_cases hr <;> decide)

/-! ## Grouper lemmas -/

theorem groupGet_catInsert_self (cat : List (String × List GroupedRec))
    (k : String) (g : GroupedRec) :
    groupGet (catInsert cat k g) k = groupGet cat k ++ [g] := by
  induction cat with
  | nil => simp [catInsert, groupGet]
  | cons p rest ih =>
    by_cases hp : (p.1 == k) = true
    · simp [catInsert, hp, groupGet]
    · simp [catInsert, hp, groupGet, ih]

theorem groupGet_catInsert_ne (cat : List (String × List GroupedRec))
    (k k' : String) (g : GroupedRec) (h : k' ≠ k) :
    groupGet (catInsert cat k g) k' = groupGet cat k' := by
  have hkk : (k == k') = false := by
    simp [beq_eq_false_iff_ne]; exact fun e => h e.symm
  induction cat with
  | nil => simp [catInsert, groupGet, hkk]
  | cons p rest ih =>
    by_cases hp : (p.1 == k) = true
    · have hp1 : p.1 = k := by simpa using hp
      have hp2 : (p.1 == k') = false := by
        simp [beq_eq_false_iff_ne, hp1]; exact fun e => h e.symm
      simp [catInsert, hp, groupGet, hp2, hp1, hkk]
    · simp [catInsert, hp, groupGet, ih]

theorem mem_catKeys_catInsert (cat : List (String × List GroupedRec))
    (k k' : String) (g : GroupedRec) :
    k' ∈ catKeys (catInsert cat k g) ↔ k' ∈ catKeys cat ∨ k' = k := by
  induction cat with
  | nil => simp [catInsert, catKeys]
  | cons p rest ih =>
    by_cases hp : (p.1 == k) = true
    · have hp1 : p.1 = k := by simpa using hp
      simp [catInsert, hp, catKeys, hp1]
      tauto
    · simp [catInsert, hp, catKeys] at ih ⊢
      tauto

theorem catKeys_nodup_catInsert (cat : List (String × List GroupedRec))
    (k : String) (g : GroupedRec) (h : (catKeys cat).Nodup) :
    (catKeys (catInsert cat k g)).Nodup := by
  induction cat with
  | nil => simp [catInsert, catKeys]
  | cons p rest ih =>
    rw [catKeys, List.map_cons, List.nodup_cons] at h
    by_cases hp : (p.1 == k) = true
    · simp only [catInsert, hp, if_true]
      rw [catKeys, List.map_cons, List.nodup_cons]
      exact ⟨h.1, h.2⟩
    · simp only [catInsert, hp, Bool.false_eq_true, if_false]
      rw [catKeys, List.map_cons, List.nodup_cons]
      refine ⟨?_, ih h.2⟩
      intro hmem
      have hmem' : p.1 ∈ catKeys (catInsert rest k g) := by
        simpa [catKeys] using hmem
      rcases (mem_catKeys_catInsert rest k p.1 g).mp hmem' with hm | hm
      · exact h.1 (by simpa [catKeys] using hm)
      · rw [hm] at hp; simp at hp

theorem categorizeAux_char (req : List String) :
    ∀ (rs : List ResRec) (cat out : List (String × List GroupedRec)),
      categorizeAux req cat rs = .ok out →
      ∀ k, groupGet out k =
        groupGet cat k ++ (rs.filter (fun r => regionOf r == k)).map (convRec req) := by
  intro rs
  induction rs with
  | nil =>
    intro cat out h k
    simp only [categorizeAux, Except.ok.injEq] at h
    subst h
    simp
  | cons r rest ih =>
    intro cat out h k
    simp only [categorizeAux] at h
    cases he : evalTagsWith req r.tags with
    | error e => rw [he] at h; simp at h
    | ok ts =>
      rw [he] at h
      have hconv : convRec req r = mkGrouped r ts := by
        simp [convRec, verdictsOfD, he]
      have hrec := ih (catInsert cat (regionOf r) (mkGrouped r ts)) out h k
      rw [hrec]
      by_cases hk : (regionOf r == k) = true
      · have hkk : regionOf r = k := by simpa using hk
        rw [List.filter_cons_of_pos (by simp [hk]), List.map_cons, hconv, ← hkk,
          groupGet_catInsert_self]
        simp
      · have hne : k ≠ regionOf r := by
          intro e; rw [e] at hk; simp at hk
        rw [List.filter_cons_of_neg (by simp [hk]),
          groupGet_catInsert_ne cat (regionOf r) k (mkGrouped r ts) hne]

theorem categorizeAux_keys_nodup (req : List String) :
    ∀ (rs : List ResRec) (cat out : List (String × List GroupedRec)),
      categorizeAux req cat rs = .ok out →
      (catKeys cat).Nodup → (catKeys out).Nodup := by
  intro rs
  induction rs with
  | nil =>
    intro cat out h hnd
    simp only [categorizeAux, Except.ok.injEq] at h
    subst h
    exact hnd
  | cons r rest ih =>
    intro cat out h hnd
    simp only [categorizeAux] at h
    cases he : evalTagsWith req r.tags with
    | error e => rw [he] at h; simp at h
    | ok ts =>
      rw [he] at h
      exact ih _ out h (catKeys_nodup_catInsert cat (regionOf r) (mkGrouped r ts) hnd)

/-! ## Claim C6 -/

/-- C6 amended: grouping is a partition of ALL the input records, not of the
"retained" ones — the group stored under key `k` is exactly the subsequence
of input records whose region key (`res.get("Region", "unknown")`) equals
`k`, in collector-emitted order, and group keys are pairwise distinct.  In
particular a record with no derivable partition is NOT dropped: it lands in
the group keyed `"unknown"`, and the union of all groups is the whole
(unduplicated) input. -/
theorem categorize_partitions_input (rs : List ResRec)
    (out : List (String × List GroupedRec))
    (h : categorize_by_region_with_tags rs = .ok out) :
    (catKeys out).Nodup ∧
    ∀ k, groupGet out k =
      (rs.filter (fun r => regionOf r == k)).map (convRec REQUIRED_TAGS) := by
  constructor
  · exact categorizeAux_keys_nodup REQUIRED_TAGS rs [] out h (by simp [catKeys])
  · intro k
    have := categorizeAux_char REQUIRED_TAGS rs [] out h k
    simpa [groupGet] using this

/-- C6 counterexample: a record with no derivable partition is not excluded
from grouping — it is placed in the group keyed `"unknown"`. -/
theorem no_region_grouped_as_unknown :
    resNoRegion.region = none ∧
    categorize_by_region_with_tags [resNoRegion] =
      .ok [("unknown", [convRec REQUIRED_TAGS resNoRegion])] := by
  refine ⟨rfl, rfl⟩

/-- Witness for the amended C6: a mixed input with a derivable and a
non-derivable region. -/
theorem categorize_partitions_input_witness :
    (catKeys [("ap-northeast-1",
        [convRec REQUIRED_TAGS
          { arn := some "arn:aws:s3:::bucketA", region := some "ap-northeast-1"
            service := some "s3", resourceType := some "AWS::S3::Bucket"
            creator := some "Unknown", eventName := some "Unknown"
            eventTime := some "Unknown", tags := .list [] }]),
      ("unknown", [convRec REQUIRED_TAGS resNoRegion])]).Nodup ∧
    ∀ k, groupGet [("ap-northeast-1",
        [convRec REQUIRED_TAGS
          { arn := some "arn:aws:s3:::bucketA", region := some "ap-northeast-1"
            service := some "s3", resourceType := some "AWS::S3::Bucket"
            creator := some "Unknown", eventName := some "Unknown"
            eventTime := some "Unknown", tags := .list [] }]),
      ("unknown", [convRec REQUIRED_TAGS resNoRegion])] k =
      (([{ arn := some "arn:aws:s3:::bucketA", region := some "ap-northeast-1"
           service := some "s3", resourceType := some "AWS::S3::Bucket"
           creator := some "Unknown", eventName := some "Unknown"
           eventTime := some "Unknown", tags := .list [] },
         resNoRegion] : List ResRec).filter
            (fun r => regionOf r == k)).map (convRec REQUIRED_TAGS) :=
  categorize_partitions_input
    [{ arn := some "arn:aws:s3:::bucketA", region := some "ap-northeast-1"
       service := some "s3", resourceType := some "AWS::S3::Bucket"
       creator := some "Unknown", eventName := some "Unknown"
       eventTime := some "Unknown", tags := .list [] },
     resNoRegion]
    [("ap-northeast-1",
        [convRec REQUIRED_TAGS
          { arn := some "arn:aws:s3:::bucketA", region := some "ap-northeast-1"
            service := some "s3", resourceType := some "AWS::S3::Bucket"
            creator := some "Unknown", eventName := some "Unknown"
            eventTime := some "Unknown", tags := .list [] }]),
      ("unknown", [convRec REQUIRED_TAGS resNoRegion])]
    rfl

/-! ## Renderer lemmas -/

theorem tagCellsOf_ok (g : GroupedRec) :
    ∀ (req : List String) (cells : List (Option String)),
      tagCellsOf g req = .ok cells →
      cells = req.map (fun t => List.lookup t g.tagStatus) := by
  intro req
  induction req with
  | nil =>
    intro cells h
    simp only [tagCellsOf, Except.ok.injEq] at h
    subst h
    simp
  | cons t rest ih =>
    intro cells h
    simp only [tagCellsOf] at h
    cases hl : List.lookup t g.tagStatus with
    | none => rw [hl] at h; simp at h
    | some v =>
      rw [hl] at h
      cases hc : tagCellsOf g rest with
      | error e => rw [hc] at h; simp at h
      | ok cs =>
        rw [hc] at h
        simp only [Except.ok.injEq] at h
        subst h
        simp [hl, ih cs hc]

theorem rowOf_ok (req : List String) (g : GroupedRec) (row : List (Option String))
    (h : rowOf req g = .ok row) :
    row.length = 6 + req.length ∧
    row.drop 6 = req.map (fun t => List.lookup t g.tagStatus) := by
  simp only [rowOf] at h
  cases hc : tagCellsOf g req with
  | error e => rw [hc] at h; simp at h
  | ok cells =>
    rw [hc] at h
    simp only [Except.ok.injEq] at h
    subst h
    have hcells := tagCellsOf_ok g req cells hc
    constructor
    · simp [hcells]
      omega
    · simp [List.drop, hcells]

theorem rowsOf_shape (req : List String) :
    ∀ (resources : List GroupedRec) (rows : List (List (Option String))),
      rowsOf req resources = .ok rows →
      rows.length = resources.length ∧
      (∀ row ∈ rows, row.length = 6 + req.length) ∧
      List.Forall₂ (fun g row =>
        row.drop 6 = req.map (fun t => List.lookup t g.tagStatus)) resources rows := by
  intro resources
  induction resources with
  | nil =>
    intro rows h
    simp only [rowsOf, Except.ok.injEq] at h
    subst h
    exact ⟨rfl, by simp, List.Forall₂.nil⟩
  | cons g rest ih =>
    intro rows h
    simp only [rowsOf] at h
    cases hr : rowOf req g with
    | error e => rw [hr] at h; simp at h
    | ok row =>
      rw [hr] at h
      cases hrest : rowsOf req rest with
      | error e => rw [hrest] at h; simp at h
      | ok rows' =>
        rw [hrest] at h
        simp only [Except.ok.injEq] at h
        subst h
        obtain ⟨hlen, hall, hfa⟩ := ih rows' hrest
        obtain ⟨hrlen, hrdrop⟩ := rowOf_ok req g row hr
        refine ⟨by simp [hlen], ?_, List.Forall₂.cons hrdrop hfa⟩
        intro r hr2
        rcases List.mem_cons.mp hr2 with h1 | h1
        · rw [h1]; exact hrlen
        · exact hall r h1

/-! ## Claim C7 -/

/-- C7 (confirmed): every rendered sheet for a group of `N` records and `K`
required tags has a header row followed by exactly `N` data rows, each row
has exactly `K + 6` cells (six fixed metadata columns), the header is the six
fixed column titles followed by the required tag keys in configured order,
and each data row's tag cells sit after the six fixed cells in that same
configured order. -/
theorem generate_excel_report_shape (req : List String) :
    ∀ (grouped : List (String × List GroupedRec))
      (sheets : List (String × List (List (Option String)))),
      generate_excel_report req grouped = .ok sheets →
      List.Forall₂ (fun grp sheet =>
        sheet.1 = grp.1 ∧
        sheet.2.length = grp.2.length + 1 ∧
        sheet.2.head? = some ((headersWith req).map some) ∧
        (∀ row ∈ sheet.2, row.length = 6 + req.length) ∧
        List.Forall₂ (fun g row =>
          row.drop 6 = req.map (fun t => List.lookup t g.tagStatus))
          grp.2 (sheet.2.drop 1)) grouped sheets := by
  intro grouped
  induction grouped with
  | nil =>
    intro sheets h
    simp only [generate_excel_report, Except.ok.injEq] at h
    subst h
    exact List.Forall₂.nil
  | cons grp rest ih =>
    intro sheets h
    obtain ⟨region, resources⟩ := grp
    simp only [generate_excel_report] at h
    cases hr : rowsOf req resources with
    | error e => rw [hr] at h; simp at h
    | ok rows =>
      rw [hr] at h
      cases hrest : generate_excel_report req rest with
      | error e => rw [hrest] at h; simp at h
      | ok sheets' =>
        rw [hrest] at h
        simp only [Except.ok.injEq] at h
        subst h
        obtain ⟨hlen, hall, hfa⟩ := rowsOf_shape req resources rows hr
        refine List.Forall₂.cons ⟨rfl, by simp [hlen], by simp, ?_, by simpa using hfa⟩ (ih sheets' hrest)
        intro row hrow
        rcases List.mem_cons.mp hrow with h1 | h1
        · rw [h1]
          simp [headersWith]
          omega
        · exact hall row h1

/-- Witness for C7 on a one-sheet, one-record grouping. -/
theorem generate_excel_report_shape_witness :
    List.Forall₂ (fun (grp : String × List GroupedRec)
        (sheet : String × List (List (Option String))) =>
        sheet.1 = grp.1 ∧
        sheet.2.length = grp.2.length + 1 ∧
        sheet.2.head? = some ((headersWith REQUIRED_TAGS).map some) ∧
        (∀ row ∈ sheet.2, row.length = 6 + REQUIRED_TAGS.length) ∧
        List.Forall₂ (fun g row =>
          row.drop 6 = REQUIRED_TAGS.map (fun t => List.lookup t g.tagStatus))
          grp.2 (sheet.2.drop 1))
      [("ap-northeast-1", [groupedC7])]
      [("ap-northeast-1",
        [(headersWith REQUIRED_TAGS).map some,
         [some "arn:aws:s3:::bucketA", some "s3", some "AWS::S3::Bucket",
          some "Unknown", some "Unknown", some "Unknown",
          some "Missing", some "Missing", some "Present", some "Missing"]])] :=
  generate_excel_report_shape REQUIRED_TAGS
    [("ap-northeast-1", [groupedC7])]
    [("ap-northeast-1",
      [(headersWith REQUIRED_TAGS).map some,
       [some "arn:aws:s3:::bucketA", some "s3", some "AWS::S3::Bucket",
        some "Unknown", some "Unknown", some "Unknown",
        some "Missing", some "Missing", some "Present", some "Missing"]])]
    rfl

/-! ## Claim C8 -/

/-- C8 (confirmed): the creator lookup makes at most one CloudTrail attempt
per record, and yields the sentinel triple whenever the lookup raises or no
matching event exists — the failure never propagates out of the function. -/
theorem get_creator_single_attempt (lookup : String → Except String CTResponse)
    (arn : Option String) :
    (get_creator_from_cloudtrail lookup arn).2 ≤ 1 ∧
    (∀ a msg, arn = some a → lookup (resourceNameOf a) = .error msg →
      (get_creator_from_cloudtrail lookup arn).1 = ("Unknown", "Unknown", "Unknown")) ∧
    (∀ a, arn = some a → lookup (resourceNameOf a) = .ok ⟨[]⟩ →
      (get_creator_from_cloudtrail lookup arn).1 = ("Unknown", "Unknown", "Unknown")) := by
  refine ⟨?_, ?_, ?_⟩
  · cases arn with
    | none => simp [get_creator_from_cloudtrail]
    | some a =>
      cases hl : lookup (resourceNameOf a) with
      | error msg => simp [get_creator_from_cloudtrail, hl]
      | ok resp =>
        cases he : resp.events with
        | nil => simp [get_creator_from_cloudtrail, hl, he]
        | cons e es => simp [get_creator_from_cloudtrail, hl, he]
  · rintro a msg rfl hl
    simp [get_creator_from_cloudtrail, hl]
  · rintro a rfl hl
    simp [get_creator_from_cloudtrail, hl]

/-- Witness for C8 at a concrete arn against the raising oracle. -/
theorem get_creator_single_attempt_witness :
    (get_creator_from_cloudtrail lookupDenied (some "arn:aws:s3:::bucketA")).2 ≤ 1 ∧
    (get_creator_from_cloudtrail lookupDenied (some "arn:aws:s3:::bucketA")).1 =
      ("Unknown", "Unknown", "Unknown") :=
  ⟨(get_creator_single_attempt lookupDenied (some "arn:aws:s3:::bucketA")).1,
   (get_creator_single_attempt lookupDenied (some "arn:aws:s3:::bucketA")).2.1
      "arn:aws:s3:::bucketA" "AccessDenied" rfl rfl⟩

/-! ## Claim C9 -/

/-- C9 counterexample: with one discovered resource and a failing S3 put, the
handler logs the upload failure but then prints the success line and returns
normally — the run's terminal message reports success, not the failure. -/
theorem upload_failure_still_reports_success :
    lambda_handler envOne creatorU (.error "AccessDenied") "2025-01-01-00-00-00" =
      ["Execution started...",
       "Failed to upload report: AccessDenied",
       "Excel report generated and uploaded successfully: tag-compliance-report-2025-01-01-00-00-00.xlsx"] := by
  rfl

/-- C9 amended: an upload failure is logged and the put is not retried (one
attempt), and the already-rendered report value is untouched by the upload
step; but the failure is NOT the run's terminal status — whenever the
pipeline reaches the upload, the handler ends with the success message
regardless of the put outcome. -/
theorem upload_failure_swallowed (env : String → RegionOutcome)
    (c : Option String → String → String × String × String)
    (ts msg : String) (resources : List ResRec)
    (cat : List (String × List GroupedRec))
    (report : List (String × List (List (Option String))))
    (hfetch : fetch_resources_from_regions env c = resources)
    (hne : resources ≠ [])
    (hcat : categorize_by_region_with_tags resources = .ok cat)
    (hrep : generate_excel_report REQUIRED_TAGS cat = .ok report) :
    (upload_excel_to_s3 (.error msg) ("tag-compliance-report-" ++ ts ++ ".xlsx")).2 = 1 ∧
    (upload_excel_to_s3 (.error msg) ("tag-compliance-report-" ++ ts ++ ".xlsx")).1 =
      "Failed to upload report: " ++ msg ∧
    lambda_handler env c (.error msg) ts =
      ["Execution started...",
       "Failed to upload report: " ++ msg,
       "Excel report generated and uploaded successfully: tag-compliance-report-" ++ ts ++ ".xlsx"] := by
  refine ⟨rfl, rfl, ?_⟩
  have hempty : resources.isEmpty = false := by
    cases resources with
    | nil => exact absurd rfl hne
    | cons a l => rfl
  simp only [lambda_handler, hfetch, hempty, Bool.false_eq_true, if_false, hcat, hrep,
    upload_excel_to_s3]
  simp only [String.append_assoc]
  rw [← String.append_assoc]
  rfl

/-- Witness for the amended C9 at the concrete one-resource run. -/
theorem upload_failure_swallowed_witness :
    (upload_excel_to_s3 (.error "AccessDenied")
        ("tag-compliance-report-" ++ "2025-01-01-00-00-00" ++ ".xlsx")).2 = 1 ∧
    (upload_excel_to_s3 (.error "AccessDenied")
        ("tag-compliance-report-" ++ "2025-01-01-00-00-00" ++ ".xlsx")).1 =
      "Failed to upload report: " ++ "AccessDenied" ∧
    lambda_handler envOne creatorU (.error "AccessDenied") "2025-01-01-00-00-00" =
      ["Execution started...",
       "Failed to upload report: " ++ "AccessDenied",
       "Excel report generated and uploaded successfully: tag-compliance-report-" ++
         "2025-01-01-00-00-00" ++ ".xlsx"] :=
  upload_failure_swallowed envOne creatorU "2025-01-01-00-00-00" "AccessDenied"
    [recA]
    [("ap-northeast-1", [convRec REQUIRED_TAGS recA])]
    [("ap-northeast-1",
      [(headersWith REQUIRED_TAGS).map some,
       [some "arn:aws:s3:::bucketA", some "s3", some "AWS::S3::Bucket",
        some "Unknown", some "Unknown", some "Unknown",
        some "Missing", some "Missing", some "Missing", some "Missing"]])]
    rfl (by simp) rfl rfl
